import Mathlib

/-!
Shallow embedding of the `waiter` static-file HTTP server (src/src/main.rs)
and a verification of the frozen specification claims about it.

The request-handling code of the repository is translated function by
function (`find_index`, `serve_file`, `serve_404`, `set_cache_time`,
`is_static_asset`, `get_cache_time_for_filetype`, `set_correct_mime_type`,
`is_htmd_file`, `current_response_has_htmd_content_type`,
`accepts_htmd_mime_type`, `set_server_header`, and the handler closure of
`main`).  Fallible operations (the `unwrap` on `File::open` and the `unwrap`
on the `Content-Type` lookup) are modelled with `Option`: a `none` result of
the handler models a panic that aborts handling of the request.

The `rouille` HTTP library is an external collaborator that is not part of
the repository sources; its response primitives used by the handler are
modelled from the spec (each such definition carries a doc comment starting
with `Modelled from the spec:`).  The filesystem and the static-file
resolution primitive `rouille::match_assets` are abstracted as an `FS`
structure: a snapshot of existence checks, open outcomes and the
collaborator's resolution result.
-/

namespace Waiter

/-- ASCII lower-casing of one character, as Rust's `to_ascii_lowercase`. -/
def asciiLowerChar (c : Char) : Char :=
  if 'A' ≤ c ∧ c ≤ 'Z' then Char.ofNat (c.toNat + 32) else c

/-- The case-normalised key of a string, used for case-insensitive header
name comparison. -/
def lowKey (s : String) : List Char :=
  s.data.map asciiLowerChar

/-- Rust's `str::eq_ignore_ascii_case`: equality after ASCII lower-casing. -/
def eqIgnoreAsciiCase (a b : String) : Bool :=
  decide (lowKey a = lowKey b)

/-- Does the second list start with the first one (character lists)? -/
def charsStartWith : List Char → List Char → Bool
  | [], _ => true
  | _ :: _, [] => false
  | a :: as, b :: bs => a == b && charsStartWith as bs

/-- Does the second list contain the first one as a contiguous run? -/
def charsContain (needle : List Char) : List Char → Bool
  | [] => charsStartWith needle []
  | b :: bs => charsStartWith needle (b :: bs) || charsContain needle bs

/-- Rust's `str::contains` with a string pattern: substring containment. -/
def strContains (haystack needle : String) : Bool :=
  charsContain needle.data haystack.data

/-- Rust's `str::ends_with` with a string pattern: suffix test. -/
def strEndsWith (s suffix : String) : Bool :=
  charsStartWith suffix.data.reverse s.data.reverse

/-- The body of a `rouille::Response`: literal text, a file stream opened
from a named file, or the empty body. -/
inductive ResponseBody where
  | from_string (s : String)
  | from_file (filename : String)
  | empty
deriving DecidableEq

/-- A `rouille::Response`: status code, ordered header list (name, value)
and a body. -/
structure Response where
  status_code : Nat
  headers : List (String × String)
  data : ResponseBody
deriving DecidableEq

/-- Remove every header whose name equals `n` case-insensitively. -/
def removeHeader (l : List (String × String)) (n : String) : List (String × String) :=
  l.filter (fun kv => !eqIgnoreAsciiCase kv.1 n)

/-- Modelled from the spec: the collaborator's header rewrite used by every
stage "strictly replaces the relevant header(s) rather than appending", and
"at most one value [is] kept per name for headers this system rewrites".
If a header with the given name is present (case-insensitively), its value
is replaced in place and later duplicates are dropped; otherwise the header
is appended. -/
def replaceHeader (n v : String) : List (String × String) → List (String × String)
  | [] => [(n, v)]
  | kv :: rest =>
    if eqIgnoreAsciiCase kv.1 n then (kv.1, v) :: removeHeader rest n
    else kv :: replaceHeader n v rest

/-- Modelled from the spec: `rouille::Response::with_unique_header`, the
replace-not-append header write used by stages 3 to 5. -/
def Response.with_unique_header (r : Response) (n v : String) : Response :=
  { r with headers := replaceHeader n v r.headers }

/-- Modelled from the spec: `rouille::Response::with_status_code` swaps the
status code of a response. -/
def Response.with_status_code (r : Response) (c : Nat) : Response :=
  { r with status_code := c }

/-- Modelled from the spec: `rouille::Response::with_public_cache` sets "a
public, cacheable-for-N-seconds cache directive", replacing any existing
`Cache-Control` value. -/
def Response.with_public_cache (r : Response) (max_age_seconds : Nat) : Response :=
  r.with_unique_header "Cache-Control" ("public, max-age=" ++ toString max_age_seconds)

/-- Modelled from the spec: a success-class response is one with a 2xx
status code (`rouille::Response::is_success`). -/
def Response.is_success (r : Response) : Bool :=
  decide (200 ≤ r.status_code) && decide (r.status_code < 300)

/-- Modelled from the spec: `rouille::Response::text` builds a 200 response
with a plain-text body and a `text/plain` `Content-Type` header. -/
def Response.text (s : String) : Response :=
  { status_code := 200
    headers := [("Content-Type", "text/plain; charset=utf8")]
    data := ResponseBody.from_string s }

/-- Modelled from the spec: `rouille::Response::from_file` builds a 200
response streaming the given file with the given `Content-Type`. -/
def Response.from_file (mime_type filename : String) : Response :=
  { status_code := 200
    headers := [("Content-Type", mime_type)]
    data := ResponseBody.from_file filename }

/-- Header lookup as written in the source: first header whose name matches
case-insensitively, mapped to its value. -/
def findH (l : List (String × String)) (n : String) : Option String :=
  (l.find? (fun kv => eqIgnoreAsciiCase kv.1 n)).map (fun kv => kv.2)

/-- Lookup of a response header by case-insensitive name. -/
def getHeader (r : Response) (n : String) : Option String :=
  findH r.headers n

/-- An inbound request: the URL path and the optional `Accept` header.  These
are the only request fields the handler reads. -/
structure Request where
  url : String
  accept : Option String
deriving DecidableEq

/-- A snapshot of the handler's environment: `pathExists` is
`Path::new(f).exists()` at check time, `openOk` tells whether `File::open`
succeeds at open time (the two may disagree, modelling the check/open race),
and `matchAssets` is the response of the external static-file resolution
primitive `rouille::match_assets` for a request URL. -/
structure FS where
  pathExists : String → Bool
  openOk : String → Bool
  matchAssets : String → Response

/-- `const CACHE_TIME_ASSETS: u64 = 31536000;` -/
def CACHE_TIME_ASSETS : Nat := 31536000

/-- `const CACHE_TIME_CONTENT: u64 = 43200;` -/
def CACHE_TIME_CONTENT : Nat := 43200

/-- The index candidates of `find_index`, in source order. -/
def possible_indexes : List (String × String) :=
  [("index.htmd", "text/htmd"),
   ("index.txt", "text/plain"),
   ("index.html", "text/html"),
   ("index.xml", "text/xml")]

/-- `find_index`: first candidate whose file exists on disk. -/
def find_index (fs : FS) : Option (String × String) :=
  possible_indexes.find? (fun p => fs.pathExists p.1)

/-- `serve_file`: opens the file with `unwrap`; an open failure is a panic,
modelled as `none`. -/
def serve_file (fs : FS) (filename mime_type : String) : Option Response :=
  if fs.openOk filename then some (Response.from_file mime_type filename) else none

/-- `serve_404`. -/
def serve_404 : Response :=
  (Response.text "Resource was not found on this server").with_status_code 404

/-- `serve_index`. -/
def serve_index (fs : FS) : Option Response :=
  match find_index fs with
  | some (filename, mime_type) => serve_file fs filename mime_type
  | none => some serve_404

/-- The asset extension list of `is_static_asset`, in source order. -/
def asset_file_types : List String :=
  [".ico", ".jpg", ".jpeg", ".png", ".webp", ".gif", ".svg", ".woff", ".woff2"]

/-- `is_static_asset`. -/
def is_static_asset (filename : String) : Bool :=
  asset_file_types.any (fun suffix => strEndsWith filename suffix)

/-- `get_cache_time_for_filetype`. -/
def get_cache_time_for_filetype (filename : String) : Nat :=
  if is_static_asset filename then CACHE_TIME_ASSETS else CACHE_TIME_CONTENT

/-- `set_cache_time`. -/
def set_cache_time (response : Response) (request_url : String) : Response :=
  response.with_public_cache (get_cache_time_for_filetype request_url)

/-- `accepts_htmd_mime_type`: the `Accept` header, defaulting to `*/*`,
contains `text/htmd`. -/
def accepts_htmd_mime_type (request : Request) : Bool :=
  strContains (request.accept.getD "*/*") "text/htmd"

/-- `current_response_has_htmd_content_type`: looks up `Content-Type` and
`unwrap`s the result; a missing header is a panic, modelled as `none`. -/
def current_response_has_htmd_content_type (response : Response) : Option Bool :=
  (findH response.headers "Content-Type").map (fun ct => strContains ct "text/htmd")

/-- `is_htmd_file`: the `||` short-circuits, so the fallible `Content-Type`
lookup only runs when the URL does not end with `.htmd`. -/
def is_htmd_file (response : Response) (request : Request) : Option Bool :=
  if strEndsWith request.url ".htmd" then some true
  else current_response_has_htmd_content_type response

/-- `set_correct_mime_type`. -/
def set_correct_mime_type (response : Response) (request : Request) : Option Response :=
  match is_htmd_file response request with
  | none => none
  | some true =>
    if accepts_htmd_mime_type request then
      some (response.with_unique_header "Content-Type" "text/htmd")
    else
      some (response.with_unique_header "Content-Type" "text/plain")
  | some false => some response

/-- `set_server_header`. -/
def set_server_header (response : Response) : Response :=
  response.with_unique_header "Server" "waiter (Rust)"

/-- The fallback branch of the handler closure in `main`: when static-file
resolution did not produce a success-class response, serve the index for `/`
and the 404 otherwise. -/
def fallback (fs : FS) (request : Request) (response : Response) : Option Response :=
  if !response.is_success then
    if request.url == "/" then serve_index fs else some serve_404
  else some response

/-- The three header-rewriting stages applied by the handler closure in
`main`, in source order: cache-control assignment, htmd mime correction,
server identification. -/
def post_stages (response : Response) (request : Request) : Option Response :=
  match set_correct_mime_type (set_cache_time response request.url) request with
  | none => none
  | some r => some (set_server_header r)

/-- The whole request handler closure of `main`: static-file resolution,
fallback, then the header-rewriting stages.  `none` models a panic that
aborts handling of the request. -/
def handle (fs : FS) (request : Request) : Option Response :=
  match fallback fs request (fs.matchAssets request.url) with
  | none => none
  | some response => post_stages response request

/-- No header of the list has the given name (case-insensitively). -/
def noM (n : String) (l : List (String × String)) : Bool :=
  l.all (fun kv => !eqIgnoreAsciiCase kv.1 n)

/-- Number of headers of the list with the given name (case-insensitively). -/
def countH (n : String) (l : List (String × String)) : Nat :=
  (l.filter (fun kv => eqIgnoreAsciiCase kv.1 n)).length

/-- The `Cache-Control` value that `set_cache_time` assigns for a request
URL. -/
def cacheValue (u : String) : String :=
  "public, max-age=" ++ toString (get_cache_time_for_filetype u)

/-- The list carries exactly one header named `n` (case-insensitively) and
its value is `v`. -/
def uniqH (n v : String) (l : List (String × String)) : Prop :=
  ∃ l₁ k l₂, l = l₁ ++ (k, v) :: l₂ ∧ noM n l₁ = true ∧
    eqIgnoreAsciiCase k n = true ∧ noM n l₂ = true

/-- The miss response of `rouille::match_assets`: an empty 404. -/
def empty_404 : Response :=
  { status_code := 404, headers := [], data := ResponseBody.empty }

/-- Fixture: a filesystem with no files at all. -/
def fsNoFiles : FS :=
  { pathExists := fun _ => false, openOk := fun _ => false,
    matchAssets := fun _ => empty_404 }

/-- Fixture: only `index.htmd` exists and opens fine. -/
def fsIndexHtmd : FS :=
  { pathExists := fun s => s == "index.htmd", openOk := fun _ => true,
    matchAssets := fun _ => empty_404 }

/-- Fixture: `index.htmd` passes the existence check but vanishes before the
open (the check/open race). -/
def fsRace : FS :=
  { pathExists := fun s => s == "index.htmd", openOk := fun _ => false,
    matchAssets := fun _ => empty_404 }

/-- Fixture: a successful static-asset resolution result carrying a
`Content-Type` header. -/
def okHtml : Response :=
  { status_code := 200, headers := [("Content-Type", "text/html")],
    data := ResponseBody.from_file "page.html" }

/-- Fixture: every URL resolves to the `okHtml` asset response. -/
def fsHtml : FS :=
  { pathExists := fun _ => false, openOk := fun _ => true,
    matchAssets := fun _ => okHtml }

/-- Fixture: the handler's output for `/missing.png` on `fsNoFiles`. -/
def r404png : Response :=
  { status_code := 404
    headers := [("Content-Type", "text/plain; charset=utf8"),
                ("Cache-Control", "public, max-age=31536000"),
                ("Server", "waiter (Rust)")]
    data := ResponseBody.from_string "Resource was not found on this server" }

/-- Fixture: the handler's output for a non-asset miss on `fsNoFiles`. -/
def r404content : Response :=
  { status_code := 404
    headers := [("Content-Type", "text/plain; charset=utf8"),
                ("Cache-Control", "public, max-age=43200"),
                ("Server", "waiter (Rust)")]
    data := ResponseBody.from_string "Resource was not found on this server" }

/-- Fixture: the handler's output for `/` on `fsIndexHtmd` with no `Accept`
header (the htmd index downgraded to `text/plain`). -/
def rIndexPlain : Response :=
  { status_code := 200
    headers := [("Content-Type", "text/plain"),
                ("Cache-Control", "public, max-age=43200"),
                ("Server", "waiter (Rust)")]
    data := ResponseBody.from_file "index.htmd" }

/-! Lemmas about case-insensitive names and the header-list operations. -/

theorem eqIC_iff {a b : String} : eqIgnoreAsciiCase a b = true ↔ lowKey a = lowKey b := by
  simp [eqIgnoreAsciiCase]

theorem eqIC_refl (a : String) : eqIgnoreAsciiCase a a = true := by
  simp [eqIgnoreAsciiCase]

theorem eqIC_false_of_match {m n k : String} (hmn : eqIgnoreAsciiCase m n = false)
    (hkm : eqIgnoreAsciiCase k m = true) : eqIgnoreAsciiCase k n = false := by
  cases h : eqIgnoreAsciiCase k n with
  | false => rfl
  | true =>
    exfalso
    have h1 := eqIC_iff.mp hkm
    have h2 := eqIC_iff.mp h
    have h3 : eqIgnoreAsciiCase m n = true := eqIC_iff.mpr (by rw [← h1]; exact h2)
    rw [h3] at hmn
    cases hmn

theorem eqIC_false_of_match' {m n k : String} (hmn : eqIgnoreAsciiCase m n = false)
    (hkn : eqIgnoreAsciiCase k n = true) : eqIgnoreAsciiCase k m = false := by
  cases h : eqIgnoreAsciiCase k m with
  | false => rfl
  | true =>
    exfalso
    have h1 := eqIC_iff.mp hkn
    have h2 := eqIC_iff.mp h
    have h3 : eqIgnoreAsciiCase m n = true := eqIC_iff.mpr (by rw [← h2]; exact h1)
    rw [h3] at hmn
    cases hmn

theorem noM_cons {n : String} {kv : String × String} {l : List (String × String)} :
    noM n (kv :: l) = (!eqIgnoreAsciiCase kv.1 n && noM n l) := by
  simp [noM]

theorem removeHeader_cons_match {n : String} {kv : String × String}
    {l : List (String × String)} (h : eqIgnoreAsciiCase kv.1 n = true) :
    removeHeader (kv :: l) n = removeHeader l n := by
  simp [removeHeader, List.filter_cons, h]

theorem removeHeader_cons_nomatch {n : String} {kv : String × String}
    {l : List (String × String)} (h : eqIgnoreAsciiCase kv.1 n = false) :
    removeHeader (kv :: l) n = kv :: removeHeader l n := by
  simp [removeHeader, List.filter_cons, h]

theorem removeHeader_append (l₁ l₂ : List (String × String)) (n : String) :
    removeHeader (l₁ ++ l₂) n = removeHeader l₁ n ++ removeHeader l₂ n := by
  simp [removeHeader]

theorem removeHeader_eq_self {n : String} {l : List (String × String)}
    (h : noM n l = true) : removeHeader l n = l := by
  induction l with
  | nil => rfl
  | cons kv t ih =>
    rw [noM_cons, Bool.and_eq_true] at h
    rw [removeHeader_cons_nomatch (by simpa using h.1), ih h.2]

theorem noM_removeHeader_self (n : String) (l : List (String × String)) :
    noM n (removeHeader l n) = true := by
  induction l with
  | nil => rfl
  | cons kv t ih =>
    cases h : eqIgnoreAsciiCase kv.1 n with
    | true => rw [removeHeader_cons_match h]; exact ih
    | false => rw [removeHeader_cons_nomatch h, noM_cons, h]; simpa using ih

theorem noM_removeHeader_of_noM {n m : String} {l : List (String × String)}
    (h : noM n l = true) : noM n (removeHeader l m) = true := by
  induction l with
  | nil => rfl
  | cons kv t ih =>
    rw [noM_cons, Bool.and_eq_true] at h
    cases hm : eqIgnoreAsciiCase kv.1 m with
    | true => rw [removeHeader_cons_match hm]; exact ih h.2
    | false =>
      rw [removeHeader_cons_nomatch hm, noM_cons, Bool.and_eq_true]
      exact ⟨h.1, ih h.2⟩

theorem replaceHeader_cons_match {n v : String} {kv : String × String}
    {l : List (String × String)} (h : eqIgnoreAsciiCase kv.1 n = true) :
    replaceHeader n v (kv :: l) = (kv.1, v) :: removeHeader l n := by
  simp [replaceHeader, h]

theorem replaceHeader_cons_nomatch {n v : String} {kv : String × String}
    {l : List (String × String)} (h : eqIgnoreAsciiCase kv.1 n = false) :
    replaceHeader n v (kv :: l) = kv :: replaceHeader n v l := by
  simp [replaceHeader, h]

theorem noM_replaceHeader {m n w : String} {l : List (String × String)}
    (hmn : eqIgnoreAsciiCase m n = false) (h : noM n l = true) :
    noM n (replaceHeader m w l) = true := by
  induction l with
  | nil => simp [replaceHeader, noM, hmn]
  | cons kv t ih =>
    rw [noM_cons, Bool.and_eq_true] at h
    cases hk : eqIgnoreAsciiCase kv.1 m with
    | true =>
      rw [replaceHeader_cons_match hk, noM_cons, Bool.and_eq_true]
      exact ⟨h.1, noM_removeHeader_of_noM h.2⟩
    | false =>
      rw [replaceHeader_cons_nomatch hk, noM_cons, Bool.and_eq_true]
      exact ⟨h.1, ih h.2⟩

theorem findH_cons_match {n : String} {kv : String × String}
    {l : List (String × String)} (h : eqIgnoreAsciiCase kv.1 n = true) :
    findH (kv :: l) n = some kv.2 := by
  simp [findH, List.find?_cons, h]

theorem findH_cons_nomatch {n : String} {kv : String × String}
    {l : List (String × String)} (h : eqIgnoreAsciiCase kv.1 n = false) :
    findH (kv :: l) n = findH l n := by
  simp [findH, List.find?_cons, h]

theorem findH_removeHeader_other {m n : String} {l : List (String × String)}
    (hmn : eqIgnoreAsciiCase m n = false) :
    findH (removeHeader l m) n = findH l n := by
  induction l with
  | nil => rfl
  | cons kv t ih =>
    cases hk : eqIgnoreAsciiCase kv.1 m with
    | true =>
      rw [removeHeader_cons_match hk, ih,
        findH_cons_nomatch (eqIC_false_of_match hmn hk)]
    | false =>
      cases hn : eqIgnoreAsciiCase kv.1 n with
      | true =>
        rw [removeHeader_cons_nomatch hk, findH_cons_match hn, findH_cons_match hn]
      | false =>
        rw [removeHeader_cons_nomatch hk, findH_cons_nomatch hn, findH_cons_nomatch hn, ih]

theorem findH_replaceHeader_same (n v : String) (l : List (String × String)) :
    findH (replaceHeader n v l) n = some v := by
  induction l with
  | nil => rw [show replaceHeader n v [] = [(n, v)] from rfl, findH_cons_match (eqIC_refl n)]
  | cons kv t ih =>
    cases hk : eqIgnoreAsciiCase kv.1 n with
    | true =>
      rw [replaceHeader_cons_match hk]
      exact findH_cons_match hk
    | false => rw [replaceHeader_cons_nomatch hk, findH_cons_nomatch hk, ih]

theorem findH_replaceHeader_other {m n : String} (w : String) {l : List (String × String)}
    (hmn : eqIgnoreAsciiCase m n = false) :
    findH (replaceHeader m w l) n = findH l n := by
  induction l with
  | nil =>
    rw [show replaceHeader m w [] = [(m, w)] from rfl, findH_cons_nomatch]
    exact hmn
  | cons kv t ih =>
    cases hk : eqIgnoreAsciiCase kv.1 m with
    | true =>
      rw [replaceHeader_cons_match hk]
      have e1 : findH ((kv.1, w) :: removeHeader t m) n = findH (removeHeader t m) n :=
        findH_cons_nomatch (eqIC_false_of_match hmn hk)
      rw [e1, findH_removeHeader_other hmn,
        findH_cons_nomatch (eqIC_false_of_match hmn hk)]
    | false =>
      cases hn : eqIgnoreAsciiCase kv.1 n with
      | true =>
        rw [replaceHeader_cons_nomatch hk, findH_cons_match hn, findH_cons_match hn]
      | false =>
        rw [replaceHeader_cons_nomatch hk, findH_cons_nomatch hn, findH_cons_nomatch hn, ih]

theorem uniqH_replaceHeader_self (n v : String) (l : List (String × String)) :
    uniqH n v (replaceHeader n v l) := by
  induction l with
  | nil => exact ⟨[], n, [], rfl, rfl, eqIC_refl n, rfl⟩
  | cons kv t ih =>
    cases hk : eqIgnoreAsciiCase kv.1 n with
    | true =>
      exact ⟨[], kv.1, removeHeader t n, by rw [replaceHeader_cons_match hk]; rfl,
        rfl, hk, noM_removeHeader_self n t⟩
    | false =>
      obtain ⟨l₁, k, l₂, heq, h1, h2, h3⟩ := ih
      refine ⟨kv :: l₁, k, l₂, ?_, ?_, h2, h3⟩
      · rw [replaceHeader_cons_nomatch hk, heq]; rfl
      · rw [noM_cons, Bool.and_eq_true, hk]; exact ⟨rfl, h1⟩

theorem uniqH_replaceHeader_other {m n v w : String} {l : List (String × String)}
    (hmn : eqIgnoreAsciiCase m n = false) (h : uniqH n v l) :
    uniqH n v (replaceHeader m w l) := by
  obtain ⟨l₁, k, l₂, heq, h1, h2, h3⟩ := h
  subst heq
  induction l₁ with
  | nil =>
    have hkm : eqIgnoreAsciiCase k m = false := eqIC_false_of_match' hmn h2
    refine ⟨[], k, replaceHeader m w l₂, ?_, rfl, h2, noM_replaceHeader hmn h3⟩
    rw [show ([] ++ (k, v) :: l₂ : List (String × String)) = (k, v) :: l₂ from rfl,
      replaceHeader_cons_nomatch hkm]
    rfl
  | cons kv t ih =>
    rw [noM_cons, Bool.and_eq_true] at h1
    have hkvn : eqIgnoreAsciiCase kv.1 n = false := by simpa using h1.1
    cases hk : eqIgnoreAsciiCase kv.1 m with
    | true =>
      have hkm : eqIgnoreAsciiCase k m = false := eqIC_false_of_match' hmn h2
      refine ⟨(kv.1, w) :: removeHeader t m, k, removeHeader l₂ m, ?_, ?_, h2,
        noM_removeHeader_of_noM h3⟩
      · rw [show ((kv :: t) ++ (k, v) :: l₂ : List (String × String)) =
            kv :: (t ++ (k, v) :: l₂) from rfl,
          replaceHeader_cons_match hk, removeHeader_append,
          removeHeader_cons_nomatch hkm]
        rfl
      · rw [noM_cons, Bool.and_eq_true, hkvn]
        exact ⟨rfl, noM_removeHeader_of_noM h1.2⟩
    | false =>
      obtain ⟨l₁', k', l₂', heq', g1, g2, g3⟩ := ih h1.2
      refine ⟨kv :: l₁', k', l₂', ?_, ?_, g2, g3⟩
      · rw [show ((kv :: t) ++ (k, v) :: l₂ : List (String × String)) =
            kv :: (t ++ (k, v) :: l₂) from rfl,
          replaceHeader_cons_nomatch hk, heq']
        rfl
      · rw [noM_cons, Bool.and_eq_true, hkvn]
        exact ⟨rfl, g1⟩

theorem replaceHeader_fix {n v : String} {l : List (String × String)}
    (h : uniqH n v l) : replaceHeader n v l = l := by
  obtain ⟨l₁, k, l₂, heq, h1, h2, h3⟩ := h
  subst heq
  induction l₁ with
  | nil =>
    rw [show ([] ++ (k, v) :: l₂ : List (String × String)) = (k, v) :: l₂ from rfl,
      replaceHeader_cons_match h2, removeHeader_eq_self h3]
  | cons kv t ih =>
    rw [noM_cons, Bool.and_eq_true] at h1
    rw [show ((kv :: t) ++ (k, v) :: l₂ : List (String × String)) =
        kv :: (t ++ (k, v) :: l₂) from rfl,
      replaceHeader_cons_nomatch (by simpa using h1.1), ih h1.2]

theorem findH_uniqH {n v : String} {l : List (String × String)}
    (h : uniqH n v l) : findH l n = some v := by
  obtain ⟨l₁, k, l₂, heq, h1, h2, h3⟩ := h
  subst heq
  induction l₁ with
  | nil => exact findH_cons_match h2
  | cons kv t ih =>
    rw [noM_cons, Bool.and_eq_true] at h1
    rw [show ((kv :: t) ++ (k, v) :: l₂ : List (String × String)) =
        kv :: (t ++ (k, v) :: l₂) from rfl,
      findH_cons_nomatch (by simpa using h1.1)]
    exact ih h1.2

theorem filter_eq_nil_of_noM {n : String} {l : List (String × String)}
    (h : noM n l = true) : l.filter (fun kv => eqIgnoreAsciiCase kv.1 n) = [] := by
  induction l with
  | nil => rfl
  | cons kv t ih =>
    rw [noM_cons, Bool.and_eq_true] at h
    rw [List.filter_cons, if_neg (by simpa using h.1)]
    exact ih h.2

theorem countH_uniqH {n v : String} {l : List (String × String)}
    (h : uniqH n v l) : countH n l = 1 := by
  obtain ⟨l₁, k, l₂, heq, h1, h2, h3⟩ := h
  subst heq
  rw [countH, List.filter_append, filter_eq_nil_of_noM h1, List.filter_cons,
    if_pos (by simpa using h2), filter_eq_nil_of_noM h3]
  rfl

theorem Response.ext_eq {a b : Response} (h1 : a.status_code = b.status_code)
    (h2 : a.headers = b.headers) (h3 : a.data = b.data) : a = b := by
  cases a
  cases b
  simp_all

/-! Unfolding equations for the response operations, and the concrete
inequalities between the header names the pipeline rewrites. -/

theorem headers_with_unique (r : Response) (n v : String) :
    (r.with_unique_header n v).headers = replaceHeader n v r.headers := rfl

theorem set_server_header_eq (r : Response) :
    set_server_header r = r.with_unique_header "Server" "waiter (Rust)" := rfl

theorem set_cache_time_eq (r : Response) (u : String) :
    set_cache_time r u = r.with_unique_header "Cache-Control" (cacheValue u) := rfl

theorem neq_S_CC : eqIgnoreAsciiCase "Server" "Cache-Control" = false := by decide

theorem neq_CT_CC : eqIgnoreAsciiCase "Content-Type" "Cache-Control" = false := by decide

theorem neq_S_CT : eqIgnoreAsciiCase "Server" "Content-Type" = false := by decide

theorem neq_CC_CT : eqIgnoreAsciiCase "Cache-Control" "Content-Type" = false := by decide

theorem with_unique_fix {r : Response} {n v : String} (h : uniqH n v r.headers) :
    r.with_unique_header n v = r :=
  Response.ext_eq rfl (by rw [headers_with_unique]; exact replaceHeader_fix h) rfl

theorem set_cache_time_fix {r : Response} {u : String}
    (h : uniqH "Cache-Control" (cacheValue u) r.headers) : set_cache_time r u = r := by
  rw [set_cache_time_eq]
  exact with_unique_fix h

theorem set_server_fix {r : Response} (h : uniqH "Server" "waiter (Rust)" r.headers) :
    set_server_header r = r := by
  rw [set_server_header_eq]
  exact with_unique_fix h

/-! Case-analysis lemmas for the mime-correction stage. -/

theorem is_htmd_of_url {r : Response} {req : Request}
    (hu : strEndsWith req.url ".htmd" = true) : is_htmd_file r req = some true := by
  unfold is_htmd_file
  rw [hu]
  rfl

theorem is_htmd_of_ct {r : Response} {req : Request} {c : String}
    (hu : strEndsWith req.url ".htmd" = false)
    (hc : findH r.headers "Content-Type" = some c) :
    is_htmd_file r req = some (strContains c "text/htmd") := by
  unfold is_htmd_file current_response_has_htmd_content_type
  rw [hu, hc]
  simp

theorem is_htmd_false_inv {r : Response} {req : Request}
    (h : is_htmd_file r req = some false) :
    strEndsWith req.url ".htmd" = false ∧
      ∃ c, findH r.headers "Content-Type" = some c ∧ strContains c "text/htmd" = false := by
  unfold is_htmd_file at h
  cases hu : strEndsWith req.url ".htmd" with
  | true => rw [hu] at h; simp at h
  | false =>
    rw [hu] at h
    unfold current_response_has_htmd_content_type at h
    simp only [Bool.false_eq_true, if_false] at h
    rw [Option.map_eq_some'] at h
    obtain ⟨c, hc, hcc⟩ := h
    exact ⟨rfl, c, hc, hcc⟩

theorem mime_id_of_false {r : Response} {req : Request}
    (h : is_htmd_file r req = some false) : set_correct_mime_type r req = some r := by
  unfold set_correct_mime_type
  rw [h]

theorem mime_htmd_accepts {r : Response} {req : Request}
    (hh : is_htmd_file r req = some true) (ha : accepts_htmd_mime_type req = true) :
    set_correct_mime_type r req = some (r.with_unique_header "Content-Type" "text/htmd") := by
  unfold set_correct_mime_type
  rw [hh, ha]
  rfl

theorem mime_htmd_rejects {r : Response} {req : Request}
    (hh : is_htmd_file r req = some true) (ha : accepts_htmd_mime_type req = false) :
    set_correct_mime_type r req = some (r.with_unique_header "Content-Type" "text/plain") := by
  unfold set_correct_mime_type
  rw [hh, ha]
  simp

theorem mime_some_shape {r r₂ : Response} {req : Request}
    (h : set_correct_mime_type r req = some r₂) :
    (is_htmd_file r req = some true ∧ accepts_htmd_mime_type req = true ∧
      r₂ = r.with_unique_header "Content-Type" "text/htmd") ∨
    (is_htmd_file r req = some true ∧ accepts_htmd_mime_type req = false ∧
      r₂ = r.with_unique_header "Content-Type" "text/plain") ∨
    (is_htmd_file r req = some false ∧ r₂ = r) := by
  cases hh : is_htmd_file r req with
  | none => rw [set_correct_mime_type, hh] at h; cases h
  | some b =>
    cases b with
    | true =>
      cases ha : accepts_htmd_mime_type req with
      | true =>
        left
        rw [mime_htmd_accepts hh ha] at h
        exact ⟨rfl, rfl, (Option.some.inj h).symm⟩
      | false =>
        right; left
        rw [mime_htmd_rejects hh ha] at h
        exact ⟨rfl, rfl, (Option.some.inj h).symm⟩
    | false =>
      right; right
      rw [mime_id_of_false hh] at h
      exact ⟨rfl, (Option.some.inj h).symm⟩

/-! Helpers about the handler pipeline. -/

theorem post_stages_some {r₀ r : Response} {req : Request}
    (h : post_stages r₀ req = some r) :
    ∃ r₂, set_correct_mime_type (set_cache_time r₀ req.url) req = some r₂ ∧
      r = set_server_header r₂ := by
  unfold post_stages at h
  cases hm : set_correct_mime_type (set_cache_time r₀ req.url) req with
  | none => rw [hm] at h; cases h
  | some r₂ =>
    rw [hm] at h
    exact ⟨r₂, rfl, (Option.some.inj h).symm⟩

theorem handle_some {fs : FS} {req : Request} {r : Response}
    (h : handle fs req = some r) :
    ∃ r₀, fallback fs req (fs.matchAssets req.url) = some r₀ ∧
      post_stages r₀ req = some r := by
  unfold handle at h
  cases hf : fallback fs req (fs.matchAssets req.url) with
  | none => rw [hf] at h; cases h
  | some r₀ => rw [hf] at h; exact ⟨r₀, rfl, h⟩

theorem post_stages_cache {r₀ r : Response} {req : Request}
    (h : post_stages r₀ req = some r) :
    getHeader r "Cache-Control" = some (cacheValue req.url) := by
  obtain ⟨r₂, hm, hr⟩ := post_stages_some h
  subst hr
  unfold getHeader
  rw [set_server_header_eq, headers_with_unique,
    findH_replaceHeader_other "waiter (Rust)" neq_S_CC]
  rcases mime_some_shape hm with ⟨hh, ha, he⟩ | ⟨hh, ha, he⟩ | ⟨hh, he⟩ <;> subst he
  · rw [headers_with_unique, findH_replaceHeader_other "text/htmd" neq_CT_CC,
      set_cache_time_eq, headers_with_unique]
    exact findH_replaceHeader_same _ _ _
  · rw [headers_with_unique, findH_replaceHeader_other "text/plain" neq_CT_CC,
      set_cache_time_eq, headers_with_unique]
    exact findH_replaceHeader_same _ _ _
  · rw [set_cache_time_eq, headers_with_unique]
    exact findH_replaceHeader_same _ _ _

theorem post_stages_server {r₀ r : Response} {req : Request}
    (h : post_stages r₀ req = some r) :
    getHeader r "Server" = some "waiter (Rust)" ∧ countH "Server" r.headers = 1 := by
  obtain ⟨r₂, hm, hr⟩ := post_stages_some h
  subst hr
  constructor
  · unfold getHeader
    rw [set_server_header_eq, headers_with_unique]
    exact findH_replaceHeader_same _ _ _
  · rw [set_server_header_eq, headers_with_unique]
    exact countH_uniqH (uniqH_replaceHeader_self _ _ _)

theorem post_stages_status_data {r₀ r : Response} {req : Request}
    (h : post_stages r₀ req = some r) :
    r.status_code = r₀.status_code ∧ r.data = r₀.data := by
  obtain ⟨r₂, hm, hr⟩ := post_stages_some h
  subst hr
  rcases mime_some_shape hm with ⟨hh, ha, he⟩ | ⟨hh, ha, he⟩ | ⟨hh, he⟩ <;> subst he <;>
    exact ⟨rfl, rfl⟩

theorem post_stages_ct_htmd {r₀ r : Response} {req : Request}
    (hu : strEndsWith req.url ".htmd" = true) (h : post_stages r₀ req = some r) :
    getHeader r "Content-Type" =
      some (if accepts_htmd_mime_type req then "text/htmd" else "text/plain") := by
  obtain ⟨r₂, hm, hr⟩ := post_stages_some h
  subst hr
  have hh : is_htmd_file (set_cache_time r₀ req.url) req = some true := is_htmd_of_url hu
  rcases mime_some_shape hm with ⟨_, ha, he⟩ | ⟨_, ha, he⟩ | ⟨hf, he⟩
  · subst he
    unfold getHeader
    rw [set_server_header_eq, headers_with_unique,
      findH_replaceHeader_other "waiter (Rust)" neq_S_CT,
      headers_with_unique, findH_replaceHeader_same, ha]
    simp
  · subst he
    unfold getHeader
    rw [set_server_header_eq, headers_with_unique,
      findH_replaceHeader_other "waiter (Rust)" neq_S_CT,
      headers_with_unique, findH_replaceHeader_same, ha]
    simp
  · rw [hf] at hh
    simp at hh

theorem fallback_root {fs : FS} {req : Request} {resp : Response}
    (hurl : req.url = "/") (hns : resp.is_success = false) :
    fallback fs req resp = serve_index fs := by
  unfold fallback
  rw [hns, hurl]
  simp

theorem fallback_miss {fs : FS} {req : Request} {resp : Response}
    (hurl : (req.url == "/") = false) (hns : resp.is_success = false) :
    fallback fs req resp = some serve_404 := by
  unfold fallback
  rw [hns, hurl]
  simp

theorem fallback_hit {fs : FS} {req : Request} {resp : Response}
    (hns : resp.is_success = true) : fallback fs req resp = some resp := by
  unfold fallback
  rw [hns]
  simp

theorem is_static_asset_eq (u : String) :
    is_static_asset u =
      (strEndsWith u ".ico" || strEndsWith u ".jpg" || strEndsWith u ".jpeg" ||
       strEndsWith u ".png" || strEndsWith u ".webp" || strEndsWith u ".gif" ||
       strEndsWith u ".svg" || strEndsWith u ".woff" || strEndsWith u ".woff2") := by
  simp [is_static_asset, asset_file_types, List.any_cons, List.any_nil, Bool.or_assoc]

theorem cache_value_eq (u : String) :
    cacheValue u =
      (if is_static_asset u then "public, max-age=31536000"
       else "public, max-age=43200") := by
  cases h : is_static_asset u with
  | true =>
    simp only [cacheValue, get_cache_time_for_filetype, h, if_true]
    decide
  | false =>
    simp only [cacheValue, get_cache_time_for_filetype, h, Bool.false_eq_true, if_false]
    decide

theorem post_stages_fix {r₀ r : Response} {req : Request}
    (h : post_stages r₀ req = some r) : post_stages r req = some r := by
  obtain ⟨r₂, hm, hr⟩ := post_stages_some h
  have hCC1 : uniqH "Cache-Control" (cacheValue req.url)
      (set_cache_time r₀ req.url).headers := by
    rw [set_cache_time_eq, headers_with_unique]
    exact uniqH_replaceHeader_self _ _ _
  have hS : ∀ x : Response, uniqH "Server" "waiter (Rust)" (set_server_header x).headers := by
    intro x
    rw [set_server_header_eq, headers_with_unique]
    exact uniqH_replaceHeader_self _ _ _
  rcases mime_some_shape hm with ⟨hh, ha, he⟩ | ⟨hh, ha, he⟩ | ⟨hh, he⟩
  · -- the client accepts htmd: Content-Type was set to text/htmd
    have hCT2 : uniqH "Content-Type" "text/htmd" r₂.headers := by
      rw [he, headers_with_unique]
      exact uniqH_replaceHeader_self _ _ _
    have hCC2 : uniqH "Cache-Control" (cacheValue req.url) r₂.headers := by
      rw [he, headers_with_unique]
      exact uniqH_replaceHeader_other neq_CT_CC hCC1
    have hCC3 : uniqH "Cache-Control" (cacheValue req.url) r.headers := by
      rw [hr, set_server_header_eq, headers_with_unique]
      exact uniqH_replaceHeader_other neq_S_CC hCC2
    have hCT3 : uniqH "Content-Type" "text/htmd" r.headers := by
      rw [hr, set_server_header_eq, headers_with_unique]
      exact uniqH_replaceHeader_other neq_S_CT hCT2
    have hS3 : uniqH "Server" "waiter (Rust)" r.headers := by
      rw [hr]
      exact hS r₂
    have e1 : set_cache_time r req.url = r := set_cache_time_fix hCC3
    have e2 : set_correct_mime_type r req = some r := by
      have hhr : is_htmd_file r req = some true := by
        cases hu : strEndsWith req.url ".htmd" with
        | true => exact is_htmd_of_url hu
        | false =>
          rw [is_htmd_of_ct hu (findH_uniqH hCT3)]
          decide
      rw [mime_htmd_accepts hhr ha, with_unique_fix hCT3]
    have e3 : set_server_header r = r := set_server_fix hS3
    unfold post_stages
    rw [e1, e2]
    show some (set_server_header r) = some r
    rw [e3]
  · -- the client rejects htmd: Content-Type was downgraded to text/plain
    have hCT2 : uniqH "Content-Type" "text/plain" r₂.headers := by
      rw [he, headers_with_unique]
      exact uniqH_replaceHeader_self _ _ _
    have hCC2 : uniqH "Cache-Control" (cacheValue req.url) r₂.headers := by
      rw [he, headers_with_unique]
      exact uniqH_replaceHeader_other neq_CT_CC hCC1
    have hCC3 : uniqH "Cache-Control" (cacheValue req.url) r.headers := by
      rw [hr, set_server_header_eq, headers_with_unique]
      exact uniqH_replaceHeader_other neq_S_CC hCC2
    have hCT3 : uniqH "Content-Type" "text/plain" r.headers := by
      rw [hr, set_server_header_eq, headers_with_unique]
      exact uniqH_replaceHeader_other neq_S_CT hCT2
    have hS3 : uniqH "Server" "waiter (Rust)" r.headers := by
      rw [hr]
      exact hS r₂
    have e1 : set_cache_time r req.url = r := set_cache_time_fix hCC3
    have e2 : set_correct_mime_type r req = some r := by
      cases hu : strEndsWith req.url ".htmd" with
      | true =>
        rw [mime_htmd_rejects (is_htmd_of_url hu) ha, with_unique_fix hCT3]
      | false =>
        apply mime_id_of_false
        rw [is_htmd_of_ct hu (findH_uniqH hCT3)]
        decide
    have e3 : set_server_header r = r := set_server_fix hS3
    unfold post_stages
    rw [e1, e2]
    show some (set_server_header r) = some r
    rw [e3]
  · -- not an htmd document: the mime stage was the identity
    obtain ⟨hu, c, hc, hcc⟩ := is_htmd_false_inv hh
    have hCC3 : uniqH "Cache-Control" (cacheValue req.url) r.headers := by
      rw [hr, set_server_header_eq, headers_with_unique, he]
      exact uniqH_replaceHeader_other neq_S_CC hCC1
    have hS3 : uniqH "Server" "waiter (Rust)" r.headers := by
      rw [hr]
      exact hS r₂
    have e1 : set_cache_time r req.url = r := set_cache_time_fix hCC3
    have hct3 : findH r.headers "Content-Type" = some c := by
      rw [hr, set_server_header_eq, headers_with_unique,
        findH_replaceHeader_other "waiter (Rust)" neq_S_CT, he]
      exact hc
    have e2 : set_correct_mime_type r req = some r := by
      apply mime_id_of_false
      rw [is_htmd_of_ct hu hct3, hcc]
    have e3 : set_server_header r = r := set_server_fix hS3
    unfold post_stages
    rw [e1, e2]
    show some (set_server_header r) = some r
    rw [e3]

theorem post_stages_isSome {r₀ : Response} {req : Request}
    (hct : (findH r₀.headers "Content-Type").isSome = true) :
    post_stages r₀ req ≠ none := by
  have e : findH (set_cache_time r₀ req.url).headers "Content-Type" =
      findH r₀.headers "Content-Type" := by
    rw [set_cache_time_eq, headers_with_unique]
    exact findH_replaceHeader_other (cacheValue req.url) neq_CC_CT
  unfold post_stages
  cases hu : strEndsWith req.url ".htmd" with
  | true =>
    have hh := is_htmd_of_url (r := set_cache_time r₀ req.url) hu
    cases ha : accepts_htmd_mime_type req with
    | true => rw [mime_htmd_accepts hh ha]; simp
    | false => rw [mime_htmd_rejects hh ha]; simp
  | false =>
    have hc' : ∃ c, findH (set_cache_time r₀ req.url).headers "Content-Type" = some c := by
      rw [e]
      exact Option.isSome_iff_exists.mp hct
    obtain ⟨c, hc⟩ := hc'
    have hh := is_htmd_of_ct hu hc
    cases hcc : strContains c "text/htmd" with
    | true =>
      rw [hcc] at hh
      cases ha : accepts_htmd_mime_type req with
      | true => rw [mime_htmd_accepts hh ha]; simp
      | false => rw [mime_htmd_rejects hh ha]; simp
    | false =>
      rw [hcc] at hh
      rw [mime_id_of_false hh]
      simp

theorem fallback_ct {fs : FS} {req : Request} {r₀ : Response}
    (hM : ∀ u, (fs.matchAssets u).is_success = true →
      (getHeader (fs.matchAssets u) "Content-Type").isSome = true)
    (hf : fallback fs req (fs.matchAssets req.url) = some r₀) :
    (findH r₀.headers "Content-Type").isSome = true := by
  cases hs : (fs.matchAssets req.url).is_success with
  | true =>
    rw [fallback_hit hs] at hf
    rw [← Option.some.inj hf]
    exact hM req.url hs
  | false =>
    cases hq : req.url == "/" with
    | false =>
      rw [fallback_miss hq hs] at hf
      rw [← Option.some.inj hf]
      decide
    | true =>
      have hurl : req.url = "/" := eq_of_beq hq
      rw [fallback_root hurl hs] at hf
      unfold serve_index at hf
      cases hfi : find_index fs with
      | none =>
        rw [hfi] at hf
        rw [← Option.some.inj hf]
        decide
      | some p =>
        obtain ⟨f, m⟩ := p
        rw [hfi] at hf
        change serve_file fs f m = some r₀ at hf
        unfold serve_file at hf
        cases ho : fs.openOk f with
        | false => rw [ho] at hf; simp at hf
        | true =>
          rw [ho] at hf
          simp only [if_true] at hf
          rw [← Option.some.inj hf]
          have hct : eqIgnoreAsciiCase "Content-Type" "Content-Type" = true := by decide
          rw [show (Response.from_file m f).headers = [("Content-Type", m)] from rfl,
            findH_cons_match hct]
          rfl

theorem fallback_none {fs : FS} {req : Request} {resp : Response}
    (hf : fallback fs req resp = none) :
    req.url = "/" ∧ ∃ f m, find_index fs = some (f, m) ∧ fs.openOk f = false := by
  cases hs : resp.is_success with
  | true => rw [fallback_hit hs] at hf; cases hf
  | false =>
    cases hq : req.url == "/" with
    | false => rw [fallback_miss hq hs] at hf; cases hf
    | true =>
      have hurl : req.url = "/" := eq_of_beq hq
      rw [fallback_root hurl hs] at hf
      refine ⟨hurl, ?_⟩
      unfold serve_index at hf
      cases hfi : find_index fs with
      | none => rw [hfi] at hf; simp at hf
      | some p =>
        obtain ⟨f, m⟩ := p
        rw [hfi] at hf
        change serve_file fs f m = none at hf
        unfold serve_file at hf
        cases ho : fs.openOk f with
        | true => rw [ho] at hf; simp at hf
        | false => exact ⟨f, m, rfl, ho⟩

theorem find_index_htmd {fs : FS} (h1 : fs.pathExists "index.htmd" = true) :
    find_index fs = some ("index.htmd", "text/htmd") := by
  simp [find_index, possible_indexes, List.find?, h1]

theorem find_index_txt {fs : FS} (h1 : fs.pathExists "index.htmd" = false)
    (h2 : fs.pathExists "index.txt" = true) :
    find_index fs = some ("index.txt", "text/plain") := by
  simp [find_index, possible_indexes, List.find?, h1, h2]

theorem find_index_html {fs : FS} (h1 : fs.pathExists "index.htmd" = false)
    (h2 : fs.pathExists "index.txt" = false) (h3 : fs.pathExists "index.html" = true) :
    find_index fs = some ("index.html", "text/html") := by
  simp [find_index, possible_indexes, List.find?, h1, h2, h3]

theorem find_index_xml {fs : FS} (h1 : fs.pathExists "index.htmd" = false)
    (h2 : fs.pathExists "index.txt" = false) (h3 : fs.pathExists "index.html" = false)
    (h4 : fs.pathExists "index.xml" = true) :
    find_index fs = some ("index.xml", "text/xml") := by
  simp [find_index, possible_indexes, List.find?, h1, h2, h3, h4]

theorem find_index_none {fs : FS} (h1 : fs.pathExists "index.htmd" = false)
    (h2 : fs.pathExists "index.txt" = false) (h3 : fs.pathExists "index.html" = false)
    (h4 : fs.pathExists "index.xml" = false) : find_index fs = none := by
  simp [find_index, possible_indexes, List.find?, h1, h2, h3, h4]

/-! The claims. -/

/-- Claim C1: a response is treated as an htmd document by
`set_correct_mime_type` exactly when the request URL ends with `.htmd` or
the current `Content-Type` value contains `text/htmd`; for an htmd document
the `Content-Type` is set to `text/htmd` when the `Accept` header
(defaulting to `*/*`) contains `text/htmd` and to `text/plain` otherwise,
leaving status and body untouched; a non-htmd document is returned
unchanged. -/
theorem C1_htmd_mime_negotiation (req : Request) (r : Response) (ct : String)
    (h : getHeader r "Content-Type" = some ct) :
    ∃ r₂, set_correct_mime_type r req = some r₂ ∧
      ((strEndsWith req.url ".htmd" || strContains ct "text/htmd") = true →
        getHeader r₂ "Content-Type" =
          some (if strContains (req.accept.getD "*/*") "text/htmd"
                then "text/htmd" else "text/plain") ∧
        r₂.status_code = r.status_code ∧ r₂.data = r.data) ∧
      ((strEndsWith req.url ".htmd" || strContains ct "text/htmd") = false → r₂ = r) := by
  cases hb : (strEndsWith req.url ".htmd" || strContains ct "text/htmd") with
  | true =>
    have hh : is_htmd_file r req = some true := by
      cases hu : strEndsWith req.url ".htmd" with
      | true => exact is_htmd_of_url hu
      | false =>
        rw [hu] at hb
        simp only [Bool.false_or] at hb
        rw [is_htmd_of_ct hu h, hb]
    cases ha : accepts_htmd_mime_type req with
    | true =>
      refine ⟨r.with_unique_header "Content-Type" "text/htmd",
        mime_htmd_accepts hh ha, ?_, ?_⟩
      · intro _
        refine ⟨?_, rfl, rfl⟩
        unfold getHeader
        rw [headers_with_unique, findH_replaceHeader_same]
        have ha' : strContains (req.accept.getD "*/*") "text/htmd" = true := ha
        rw [ha']
        simp
      · intro hfalse
        exact Bool.noConfusion hfalse
    | false =>
      refine ⟨r.with_unique_header "Content-Type" "text/plain",
        mime_htmd_rejects hh ha, ?_, ?_⟩
      · intro _
        refine ⟨?_, rfl, rfl⟩
        unfold getHeader
        rw [headers_with_unique, findH_replaceHeader_same]
        have ha' : strContains (req.accept.getD "*/*") "text/htmd" = false := ha
        rw [ha']
        simp
      · intro hfalse
        exact Bool.noConfusion hfalse
  | false =>
    have hu : strEndsWith req.url ".htmd" = false := by
      cases hu : strEndsWith req.url ".htmd" with
      | false => rfl
      | true => rw [hu] at hb; simp at hb
    have hcc : strContains ct "text/htmd" = false := by
      rw [hu] at hb
      simpa using hb
    have hh : is_htmd_file r req = some false := by
      rw [is_htmd_of_ct hu h, hcc]
    refine ⟨r, mime_id_of_false hh, ?_, fun _ => rfl⟩
    intro hcontra
    exact Bool.noConfusion hcontra

/-- Witness for C1 at the 404 response and a `.htmd` request accepting
`text/htmd`. -/
theorem C1_htmd_mime_negotiation_witness :
    getHeader serve_404 "Content-Type" = some "text/plain; charset=utf8" ∧
    (∃ r₂, set_correct_mime_type serve_404
        { url := "/doc.htmd", accept := some "text/htmd" } = some r₂ ∧
      ((strEndsWith "/doc.htmd" ".htmd" ||
          strContains "text/plain; charset=utf8" "text/htmd") = true →
        getHeader r₂ "Content-Type" =
          some (if strContains ((some "text/htmd").getD "*/*") "text/htmd"
                then "text/htmd" else "text/plain") ∧
        r₂.status_code = serve_404.status_code ∧ r₂.data = serve_404.data) ∧
      ((strEndsWith "/doc.htmd" ".htmd" ||
          strContains "text/plain; charset=utf8" "text/htmd") = false →
        r₂ = serve_404)) :=
  ⟨by decide, C1_htmd_mime_negotiation { url := "/doc.htmd", accept := some "text/htmd" }
    serve_404 "text/plain; charset=utf8" (by decide)⟩

/-- Claim C2: for a request to `/` whose static resolution was not
successful, the fallback stage serves the index search result: the four
candidates are tried in the order `index.htmd`, `index.txt`, `index.html`,
`index.xml`, the first existing one is returned as a 200 file response with
the paired mime type as `Content-Type`, and the 404 response is returned
when none exists.  The selection reads only file existence (`serve_index`
takes no request data, so the `Accept` header cannot influence it). -/
theorem C2_index_priority (fs : FS) (req : Request) (resp : Response)
    (hurl : req.url = "/") (hns : resp.is_success = false)
    (hopen : ∀ f, fs.pathExists f = true → fs.openOk f = true) :
    fallback fs req resp = serve_index fs ∧
    (fs.pathExists "index.htmd" = true →
      serve_index fs = some (Response.from_file "text/htmd" "index.htmd")) ∧
    (fs.pathExists "index.htmd" = false → fs.pathExists "index.txt" = true →
      serve_index fs = some (Response.from_file "text/plain" "index.txt")) ∧
    (fs.pathExists "index.htmd" = false → fs.pathExists "index.txt" = false →
      fs.pathExists "index.html" = true →
      serve_index fs = some (Response.from_file "text/html" "index.html")) ∧
    (fs.pathExists "index.htmd" = false → fs.pathExists "index.txt" = false →
      fs.pathExists "index.html" = false → fs.pathExists "index.xml" = true →
      serve_index fs = some (Response.from_file "text/xml" "index.xml")) ∧
    (fs.pathExists "index.htmd" = false → fs.pathExists "index.txt" = false →
      fs.pathExists "index.html" = false → fs.pathExists "index.xml" = false →
      serve_index fs = some serve_404) ∧
    (∀ mime_type filename,
      (Response.from_file mime_type filename).status_code = 200 ∧
      getHeader (Response.from_file mime_type filename) "Content-Type" = some mime_type ∧
      (Response.from_file mime_type filename).data = ResponseBody.from_file filename) ∧
    serve_404.status_code = 404 := by
  have hserve : ∀ f m, find_index fs = some (f, m) → fs.pathExists f = true →
      serve_index fs = some (Response.from_file m f) := by
    intro f m hfi hex
    unfold serve_index
    rw [hfi]
    show serve_file fs f m = some (Response.from_file m f)
    unfold serve_file
    rw [hopen f hex]
    rfl
  refine ⟨fallback_root hurl hns, ?_, ?_, ?_, ?_, ?_, ?_, rfl⟩
  · intro h1
    exact hserve _ _ (find_index_htmd h1) h1
  · intro h1 h2
    exact hserve _ _ (find_index_txt h1 h2) h2
  · intro h1 h2 h3
    exact hserve _ _ (find_index_html h1 h2 h3) h3
  · intro h1 h2 h3 h4
    exact hserve _ _ (find_index_xml h1 h2 h3 h4) h4
  · intro h1 h2 h3 h4
    unfold serve_index
    rw [find_index_none h1 h2 h3 h4]
  · intro mime_type filename
    refine ⟨rfl, ?_, rfl⟩
    have hct : eqIgnoreAsciiCase "Content-Type" "Content-Type" = true := by decide
    exact findH_cons_match hct

/-- Witness for C2 on a filesystem carrying only `index.htmd`. -/
theorem C2_index_priority_witness :
    (({ url := "/", accept := none } : Request).url = "/" ∧
      empty_404.is_success = false ∧
      (∀ f, fsIndexHtmd.pathExists f = true → fsIndexHtmd.openOk f = true)) ∧
    (fallback fsIndexHtmd { url := "/", accept := none } empty_404 =
        serve_index fsIndexHtmd ∧
      (fsIndexHtmd.pathExists "index.htmd" = true →
        serve_index fsIndexHtmd = some (Response.from_file "text/htmd" "index.htmd")) ∧
      (fsIndexHtmd.pathExists "index.htmd" = false →
        fsIndexHtmd.pathExists "index.txt" = true →
        serve_index fsIndexHtmd = some (Response.from_file "text/plain" "index.txt")) ∧
      (fsIndexHtmd.pathExists "index.htmd" = false →
        fsIndexHtmd.pathExists "index.txt" = false →
        fsIndexHtmd.pathExists "index.html" = true →
        serve_index fsIndexHtmd = some (Response.from_file "text/html" "index.html")) ∧
      (fsIndexHtmd.pathExists "index.htmd" = false →
        fsIndexHtmd.pathExists "index.txt" = false →
        fsIndexHtmd.pathExists "index.html" = false →
        fsIndexHtmd.pathExists "index.xml" = true →
        serve_index fsIndexHtmd = some (Response.from_file "text/xml" "index.xml")) ∧
      (fsIndexHtmd.pathExists "index.htmd" = false →
        fsIndexHtmd.pathExists "index.txt" = false →
        fsIndexHtmd.pathExists "index.html" = false →
        fsIndexHtmd.pathExists "index.xml" = false →
        serve_index fsIndexHtmd = some serve_404) ∧
      (∀ mime_type filename,
        (Response.from_file mime_type filename).status_code = 200 ∧
        getHeader (Response.from_file mime_type filename) "Content-Type" = some mime_type ∧
        (Response.from_file mime_type filename).data = ResponseBody.from_file filename) ∧
      serve_404.status_code = 404) :=
  ⟨⟨rfl, by decide, fun _ _ => rfl⟩,
    C2_index_priority fsIndexHtmd { url := "/", accept := none } empty_404 rfl
      (by decide) (fun _ _ => rfl)⟩

/-- Claim C3: every response of the handler carries a public `Cache-Control`
directive; its max-age is 31536000 seconds when the request URL ends with
one of the nine asset suffixes and 43200 seconds otherwise, including for
404 responses (the theorem covers every handler output). -/
theorem C3_cache_control_policy (fs : FS) (req : Request) (r : Response)
    (h : handle fs req = some r) :
    getHeader r "Cache-Control" =
      some (if (strEndsWith req.url ".ico" || strEndsWith req.url ".jpg" ||
                strEndsWith req.url ".jpeg" || strEndsWith req.url ".png" ||
                strEndsWith req.url ".webp" || strEndsWith req.url ".gif" ||
                strEndsWith req.url ".svg" || strEndsWith req.url ".woff" ||
                strEndsWith req.url ".woff2")
            then "public, max-age=31536000" else "public, max-age=43200") := by
  obtain ⟨r₀, hf, hp⟩ := handle_some h
  rw [post_stages_cache hp, cache_value_eq, is_static_asset_eq]

/-- Witness for C3 on a missing asset-suffixed URL (a 404 that still gets
the long cache lifetime). -/
theorem C3_cache_control_policy_witness :
    handle fsNoFiles { url := "/img.png", accept := none } = some r404png ∧
    getHeader r404png "Cache-Control" =
      some (if (strEndsWith "/img.png" ".ico" || strEndsWith "/img.png" ".jpg" ||
                strEndsWith "/img.png" ".jpeg" || strEndsWith "/img.png" ".png" ||
                strEndsWith "/img.png" ".webp" || strEndsWith "/img.png" ".gif" ||
                strEndsWith "/img.png" ".svg" || strEndsWith "/img.png" ".woff" ||
                strEndsWith "/img.png" ".woff2")
            then "public, max-age=31536000" else "public, max-age=43200") :=
  ⟨by decide,
    C3_cache_control_policy fsNoFiles { url := "/img.png", accept := none } r404png (by decide)⟩

/-- Counterexample to claim C4 as stated: the request `/missing.woff2` has a
URL that is not `/`, its static resolution is unsuccessful, and the 404
response produced by the handler carries `Cache-Control:
public, max-age=31536000` rather than the claimed max-age of 43200, because
the cache stage classifies by URL suffix unconditionally. -/
theorem C4_counterexample_asset_404_cache :
    ({ url := "/missing.woff2", accept := none } : Request).url ≠ "/" ∧
    (fsNoFiles.matchAssets "/missing.woff2").is_success = false ∧
    (handle fsNoFiles { url := "/missing.woff2", accept := none }).map
        (fun r => getHeader r "Cache-Control") =
      some (some "public, max-age=31536000") ∧
    (handle fsNoFiles { url := "/missing.woff2", accept := none }).map
        (fun r => getHeader r "Cache-Control") ≠
      some (some "public, max-age=43200") := by
  refine ⟨?_, ?_, ?_, ?_⟩ <;> decide

/-- Claim C4 (amended): for every request whose URL is not `/` and whose
static resolution was not success-class, the handler returns status 404
with plain-text body exactly "Resource was not found on this server", and
the response still carries a `Cache-Control` header (max-age 43200 when the
URL does not end with an asset suffix, 31536000 when it does) and a
`Server` header. -/
theorem C4_not_found_response (fs : FS) (req : Request)
    (hurl : req.url ≠ "/")
    (hns : (fs.matchAssets req.url).is_success = false) :
    ∃ r, handle fs req = some r ∧ r.status_code = 404 ∧
      r.data = ResponseBody.from_string "Resource was not found on this server" ∧
      getHeader r "Cache-Control" =
        some (if (strEndsWith req.url ".ico" || strEndsWith req.url ".jpg" ||
                  strEndsWith req.url ".jpeg" || strEndsWith req.url ".png" ||
                  strEndsWith req.url ".webp" || strEndsWith req.url ".gif" ||
                  strEndsWith req.url ".svg" || strEndsWith req.url ".woff" ||
                  strEndsWith req.url ".woff2")
              then "public, max-age=31536000" else "public, max-age=43200") ∧
      getHeader r "Server" = some "waiter (Rust)" := by
  have hq : (req.url == "/") = false := by
    cases hq : req.url == "/" with
    | false => rfl
    | true => exact absurd (eq_of_beq hq) hurl
  have hf : fallback fs req (fs.matchAssets req.url) = some serve_404 :=
    fallback_miss hq hns
  have hh : handle fs req = post_stages serve_404 req := by
    unfold handle
    rw [hf]
  have hct : (findH serve_404.headers "Content-Type").isSome = true := by decide
  cases hps : post_stages serve_404 req with
  | none => exact absurd hps (post_stages_isSome hct)
  | some r =>
    refine ⟨r, by rw [hh, hps], ?_, ?_, ?_, ?_⟩
    · rw [(post_stages_status_data hps).1]
      rfl
    · rw [(post_stages_status_data hps).2]
      rfl
    · rw [post_stages_cache hps, cache_value_eq, is_static_asset_eq]
    · exact (post_stages_server hps).1

/-- Witness for the amended C4 at the URL `/nothing`. -/
theorem C4_not_found_response_witness :
    (({ url := "/nothing", accept := none } : Request).url ≠ "/" ∧
      (fsNoFiles.matchAssets "/nothing").is_success = false) ∧
    (∃ r, handle fsNoFiles { url := "/nothing", accept := none } = some r ∧
      r.status_code = 404 ∧
      r.data = ResponseBody.from_string "Resource was not found on this server" ∧
      getHeader r "Cache-Control" =
        some (if (strEndsWith "/nothing" ".ico" || strEndsWith "/nothing" ".jpg" ||
                  strEndsWith "/nothing" ".jpeg" || strEndsWith "/nothing" ".png" ||
                  strEndsWith "/nothing" ".webp" || strEndsWith "/nothing" ".gif" ||
                  strEndsWith "/nothing" ".svg" || strEndsWith "/nothing" ".woff" ||
                  strEndsWith "/nothing" ".woff2")
              then "public, max-age=31536000" else "public, max-age=43200") ∧
      getHeader r "Server" = some "waiter (Rust)") :=
  ⟨⟨by decide, by decide⟩,
    C4_not_found_response fsNoFiles { url := "/nothing", accept := none }
      (by decide) (by decide)⟩

/-- Claim C5: when an index file passes the existence check but its open
fails, handling of the request terminates abnormally (the `unwrap` panic is
modelled by `none`) instead of degrading to a 404 response. -/
theorem C5_index_open_race_panics (fs : FS) (req : Request) (f m : String)
    (hurl : req.url = "/")
    (hns : (fs.matchAssets req.url).is_success = false)
    (hfi : find_index fs = some (f, m))
    (ho : fs.openOk f = false) :
    handle fs req = none := by
  have hfb : fallback fs req (fs.matchAssets req.url) = none := by
    rw [fallback_root hurl hns]
    unfold serve_index
    rw [hfi]
    show serve_file fs f m = none
    unfold serve_file
    rw [ho]
    rfl
  unfold handle
  rw [hfb]

/-- Witness for C5 on the racing filesystem fixture. -/
theorem C5_index_open_race_panics_witness :
    (({ url := "/", accept := none } : Request).url = "/" ∧
      (fsRace.matchAssets "/").is_success = false ∧
      find_index fsRace = some ("index.htmd", "text/htmd") ∧
      fsRace.openOk "index.htmd" = false) ∧
    handle fsRace { url := "/", accept := none } = none :=
  ⟨⟨rfl, by decide, by decide, rfl⟩,
    C5_index_open_race_panics fsRace { url := "/", accept := none }
      "index.htmd" "text/htmd" rfl (by decide) (by decide) rfl⟩

/-- Claim C6: re-applying the three header-rewriting stages (cache-control
assignment, htmd mime correction, server identification) to any response
produced by the full pipeline, with the same request, yields the identical
response: each stage replaces its header in place, so no duplicate headers
appear and no header value changes. -/
theorem C6_pipeline_idempotent (fs : FS) (req : Request) (r : Response)
    (h : handle fs req = some r) : post_stages r req = some r := by
  obtain ⟨r₀, hf, hp⟩ := handle_some h
  exact post_stages_fix hp

/-- Witness for C6 on the htmd-index downgrade response, the case where the
second mime decision differs from the first. -/
theorem C6_pipeline_idempotent_witness :
    handle fsIndexHtmd { url := "/", accept := none } = some rIndexPlain ∧
    post_stages rIndexPlain { url := "/", accept := none } = some rIndexPlain :=
  ⟨by decide,
    C6_pipeline_idempotent fsIndexHtmd { url := "/", accept := none } rIndexPlain (by decide)⟩

/-- Claim C7: every response of the handler carries exactly one `Server`
header and its value is the fixed string "waiter (Rust)"; the stage
replaces any `Server` value already present. -/
theorem C7_server_header (fs : FS) (req : Request) (r : Response)
    (h : handle fs req = some r) :
    getHeader r "Server" = some "waiter (Rust)" ∧ countH "Server" r.headers = 1 := by
  obtain ⟨r₀, hf, hp⟩ := handle_some h
  exact post_stages_server hp

/-- Witness for C7 on a plain 404 response. -/
theorem C7_server_header_witness :
    handle fsNoFiles { url := "/about", accept := none } = some r404content ∧
    (getHeader r404content "Server" = some "waiter (Rust)" ∧
      countH "Server" r404content.headers = 1) :=
  ⟨by decide,
    C7_server_header fsNoFiles { url := "/about", accept := none } r404content (by decide)⟩

/-- Claim C8: the handler is deterministic given the filesystem snapshot:
two invocations with equal request fields (URL and `Accept`) and equal
filesystem behaviour (existence checks, open outcomes and static resolution
results) produce equal outcomes. -/
theorem C8_deterministic (fs₁ fs₂ : FS) (req₁ req₂ : Request)
    (hu : req₁.url = req₂.url) (ha : req₁.accept = req₂.accept)
    (hp : ∀ p, fs₁.pathExists p = fs₂.pathExists p)
    (ho : ∀ p, fs₁.openOk p = fs₂.openOk p)
    (hm : ∀ u, fs₁.matchAssets u = fs₂.matchAssets u) :
    handle fs₁ req₁ = handle fs₂ req₂ := by
  have e1 : fs₁ = fs₂ := by
    cases fs₁
    cases fs₂
    simp only [FS.mk.injEq]
    exact ⟨funext hp, funext ho, funext hm⟩
  have e2 : req₁ = req₂ := by
    cases req₁
    cases req₂
    simp_all
  rw [e1, e2]

/-- Witness for C8: two identical invocations agree. -/
theorem C8_deterministic_witness :
    ((({ url := "/", accept := none } : Request).url =
        ({ url := "/", accept := none } : Request).url) ∧
      (({ url := "/", accept := none } : Request).accept =
        ({ url := "/", accept := none } : Request).accept) ∧
      (∀ p, fsNoFiles.pathExists p = fsNoFiles.pathExists p) ∧
      (∀ p, fsNoFiles.openOk p = fsNoFiles.openOk p) ∧
      (∀ u, fsNoFiles.matchAssets u = fsNoFiles.matchAssets u)) ∧
    handle fsNoFiles { url := "/", accept := none } =
      handle fsNoFiles { url := "/", accept := none } :=
  ⟨⟨rfl, rfl, fun _ => rfl, fun _ => rfl, fun _ => rfl⟩,
    C8_deterministic fsNoFiles fsNoFiles { url := "/", accept := none }
      { url := "/", accept := none } rfl rfl (fun _ => rfl) (fun _ => rfl) (fun _ => rfl)⟩

/-- Claim C9: the htmd detection is partial: when the URL does not end in
`.htmd` it unwraps the `Content-Type` lookup, so it panics (returns `none`)
on a response lacking that header; and under the invariant that every
successful static resolution carries a `Content-Type` (which index file
responses and the 404 text response do by construction), the pipeline never
reaches that panic: the handler can only abort through the index open
race. -/
theorem C9_content_type_unwrap (fs : FS) (req : Request) (r : Response)
    (hM : ∀ u, (fs.matchAssets u).is_success = true →
      (getHeader (fs.matchAssets u) "Content-Type").isSome = true) :
    (strEndsWith req.url ".htmd" = false → getHeader r "Content-Type" = none →
      set_correct_mime_type r req = none) ∧
    (handle fs req = none →
      req.url = "/" ∧ ∃ f m, find_index fs = some (f, m) ∧ fs.openOk f = false) := by
  constructor
  · intro hu hct
    have hh : is_htmd_file r req = none := by
      unfold is_htmd_file
      rw [hu]
      simp only [Bool.false_eq_true, if_false]
      unfold current_response_has_htmd_content_type
      rw [show findH r.headers "Content-Type" = none from hct]
      rfl
    unfold set_correct_mime_type
    rw [hh]
  · intro hnone
    unfold handle at hnone
    cases hf : fallback fs req (fs.matchAssets req.url) with
    | none => exact fallback_none hf
    | some r₀ =>
      rw [hf] at hnone
      exact absurd hnone (post_stages_isSome (fallback_ct hM hf))

/-- Witness for C9: the invariant holds on the `fsHtml` fixture, the
header-less `empty_404` makes the mime stage panic, and the handler output
branch is instantiated there. -/
theorem C9_content_type_unwrap_witness :
    (∀ u, (fsHtml.matchAssets u).is_success = true →
      (getHeader (fsHtml.matchAssets u) "Content-Type").isSome = true) ∧
    ((strEndsWith ({ url := "/x", accept := none } : Request).url ".htmd" = false →
        getHeader empty_404 "Content-Type" = none →
        set_correct_mime_type empty_404 { url := "/x", accept := none } = none) ∧
      (handle fsHtml { url := "/x", accept := none } = none →
        ({ url := "/x", accept := none } : Request).url = "/" ∧
        ∃ f m, find_index fsHtml = some (f, m) ∧ fsHtml.openOk f = false)) :=
  ⟨fun _ _ => rfl,
    C9_content_type_unwrap fsHtml { url := "/x", accept := none } empty_404
      (fun _ _ => rfl)⟩

/-- Claim C10: htmd detection keys on the request URL, so a 404 for a
missing path ending in `.htmd` also has its `Content-Type` rewritten by
content negotiation (`text/htmd` when the `Accept` header contains
`text/htmd`, `text/plain` otherwise) even though the body is the plain-text
404 message. -/
theorem C10_htmd_404_negotiated (fs : FS) (req : Request)
    (hu : strEndsWith req.url ".htmd" = true)
    (hns : (fs.matchAssets req.url).is_success = false) :
    ∃ r, handle fs req = some r ∧ r.status_code = 404 ∧
      r.data = ResponseBody.from_string "Resource was not found on this server" ∧
      getHeader r "Content-Type" =
        some (if strContains (req.accept.getD "*/*") "text/htmd"
              then "text/htmd" else "text/plain") := by
  have hq : (req.url == "/") = false := by
    cases hq : req.url == "/" with
    | false => rfl
    | true =>
      have hr : req.url = "/" := eq_of_beq hq
      rw [hr] at hu
      exact absurd hu (by decide)
  have hf : fallback fs req (fs.matchAssets req.url) = some serve_404 :=
    fallback_miss hq hns
  have hh : handle fs req = post_stages serve_404 req := by
    unfold handle
    rw [hf]
  have hct : (findH serve_404.headers "Content-Type").isSome = true := by decide
  cases hps : post_stages serve_404 req with
  | none => exact absurd hps (post_stages_isSome hct)
  | some r =>
    refine ⟨r, by rw [hh, hps], ?_, ?_, ?_⟩
    · rw [(post_stages_status_data hps).1]
      rfl
    · rw [(post_stages_status_data hps).2]
      rfl
    · exact post_stages_ct_htmd hu hps

/-- Witness for C10 at `/missing.htmd` with an `Accept` naming
`text/htmd`. -/
theorem C10_htmd_404_negotiated_witness :
    (strEndsWith ({ url := "/missing.htmd", accept := some "text/htmd" } : Request).url
        ".htmd" = true ∧
      (fsNoFiles.matchAssets "/missing.htmd").is_success = false) ∧
    (∃ r, handle fsNoFiles { url := "/missing.htmd", accept := some "text/htmd" } = some r ∧
      r.status_code = 404 ∧
      r.data = ResponseBody.from_string "Resource was not found on this server" ∧
      getHeader r "Content-Type" =
        some (if strContains ((some "text/htmd").getD "*/*") "text/htmd"
              then "text/htmd" else "text/plain")) :=
  ⟨⟨by decide, by decide⟩,
    C10_htmd_404_negotiated fsNoFiles { url := "/missing.htmd", accept := some "text/htmd" }
      (by decide) (by decide)⟩

end Waiter
